import Mathlib

/-!
Verification of `src/main.py` (gemini-agent): a FastAPI façade over the
Google Gen AI SDK.  We shallowly embed the pure logic of the service:

* a model of dynamic Python values (`PyVal`) sufficient for the response
  shapes the text-extraction routine `_out_text` walks over;
* the `_out_text` normalizer (main.py lines 40-73), translated line by
  line, with `Except Unit` marking a propagating `TypeError` (iterating a
  non-iterable value);
* the `_err` error-envelope message computation (lines 75-89), including
  the regex tail search and a JSON parser modelling `json.loads`;
* the pydantic request schemas and their validation (lines 109-124);
* the generation-config construction of the three handlers (lines
  140-145, 161-166, 188-193);
* the SSE generator `event_gen` of the `/stream` handler (lines 175-207).
-/

set_option autoImplicit false

instance {ε α : Type} [DecidableEq ε] [DecidableEq α] : DecidableEq (Except ε α) := fun
  | .error e, .error f => decidable_of_iff (e = f) (by simp)
  | .error _, .ok _ => Decidable.isFalse (by simp)
  | .ok _, .error _ => Decidable.isFalse (by simp)
  | .ok x, .ok y => decidable_of_iff (x = y) (by simp)

/-! ## A model of the dynamic Python values seen by `_out_text`

`_out_text` receives an opaque response value and probes it with
`getattr`, `isinstance(x, dict)`, `dict.get`, truthiness tests and `for`
iteration.  `PyVal` models the value shapes relevant to that walk:
`none` (Python `None` or an absent field), strings, sequences, dicts and
attribute-style objects.  Objects and dicts both carry a field list with
distinct keys. -/

inductive PyVal where
  | none
  | str (s : String)
  | list (xs : List PyVal)
  | dict (fields : List (String × PyVal))
  | obj (fields : List (String × PyVal))

/-- Association-list field lookup; absent keys give `PyVal.none`
(matching `getattr(x, a, None)` and `dict.get(k)`). -/
def assocGet (fields : List (String × PyVal)) (name : String) : PyVal :=
  match fields with
  | [] => PyVal.none
  | (k, v) :: rest => if k = name then v else assocGet rest name

/-- `getattr(v, name, None)`: attribute access with default `None`.
Only attribute-style objects expose their fields as attributes; a dict's
keys are NOT attributes, and `None`, strings and lists have none of the
attribute names probed by `_out_text`. -/
def pyGetattr (v : PyVal) (name : String) : PyVal :=
  match v with
  | .obj fields => assocGet fields name
  | _ => PyVal.none

/-- The idiom `getattr(x, n, None) if not isinstance(x, dict) else x.get(n)`
used at main.py lines 59, 62 and 66. -/
def fieldOf (v : PyVal) (name : String) : PyVal :=
  match v with
  | .dict fields => assocGet fields name
  | _ => pyGetattr v name

/-- Python truthiness of a `PyVal`: `None` is falsy, strings/lists/dicts
are truthy iff non-empty, plain objects are always truthy. -/
def pyTruthy : PyVal → Bool
  | .none => false
  | .str s => !(s == "")
  | .list xs => !xs.isEmpty
  | .dict fields => !fields.isEmpty
  | .obj _ => true

/-- Python `for x in v`: lists yield their elements, dicts their keys
(as strings), strings their characters (as 1-character strings); `None`
and plain objects are not iterable (`for` raises `TypeError`). -/
def pyIter : PyVal → Option (List PyVal)
  | .list xs => some xs
  | .dict fields => some (fields.map (fun kv => PyVal.str kv.1))
  | .str s => some (s.toList.map (fun c => PyVal.str c.toString))
  | _ => Option.none

/-- Characters treated as whitespace by Python's `str.strip()` (ASCII
whitespace; exotic Unicode spaces are not modelled). -/
def isPySpace (c : Char) : Bool :=
  c = ' ' || c = '\t' || c = '\n' || c = '\r' || c = '\x0b' || c = '\x0c'

/-- Truthiness of `s.strip()`: true iff `s` has a non-whitespace
character. -/
def pyStripTruthy (s : String) : Bool :=
  s.toList.any (fun c => !isPySpace c)

/-! ## The normalizer `_out_text` (main.py lines 40-73) -/

/-- Step 1 of `_out_text` for one attribute name:
`val = getattr(resp, attr, None); if isinstance(val, str) and val.strip(): return val`. -/
def convCheck (resp : PyVal) (attr : String) : Option String :=
  match pyGetattr resp attr with
  | .str v => if pyStripTruthy v then some v else Option.none
  | _ => Option.none

/-- Step 1 of `_out_text`: the loop `for attr in ("text", "output_text")`. -/
def convVal (resp : PyVal) : Option String :=
  match convCheck resp "text" with
  | some v => some v
  | Option.none => convCheck resp "output_text"

/-- Lines 52-54: `candidates = getattr(resp, "candidates", None)`, then
`if candidates is None and isinstance(resp, dict): candidates = resp.get("candidates")`. -/
def candidatesOf (resp : PyVal) : PyVal :=
  match pyGetattr resp "candidates", resp with
  | .none, .dict fields => assocGet fields "candidates"
  | c, _ => c

/-- Lines 66-68: `t = getattr(p, "text", None) if not isinstance(p, dict)
else p.get("text")`, kept when `isinstance(t, str) and t` (non-empty,
no stripping here). -/
def partText (p : PyVal) : Option String :=
  match fieldOf p "text" with
  | .str t => if t == "" then Option.none else some t
  | _ => Option.none

/-- The inner `for p in parts` loop, collecting texts in order. -/
def partsTexts (ps : List PyVal) : List String :=
  ps.filterMap partText

/-- Lines 59-68 for one candidate: fetch `content`, skip if falsy, fetch
`content.parts`, skip if falsy, else iterate the parts. `Except.error`
is the `TypeError` of iterating a truthy non-iterable `parts`. -/
def candTexts (cand : PyVal) : Except Unit (List String) :=
  let content := fieldOf cand "content"
  if pyTruthy content then
    let parts := fieldOf content "parts"
    if pyTruthy parts then
      match pyIter parts with
      | some ps => Except.ok (partsTexts ps)
      | Option.none => Except.error ()
    else Except.ok []
  else Except.ok []

/-- The outer `for cand in candidates` loop. -/
def candsTexts : List PyVal → Except Unit (List String)
  | [] => Except.ok []
  | c :: cs => do
    let t ← candTexts c
    let r ← candsTexts cs
    Except.ok (t ++ r)

/-- `_out_text(resp)` (main.py lines 40-73).  `Except.error ()` models a
`TypeError` escaping the routine (it contains no `try`); `Except.ok s`
models a normal return of `s`. -/
def _out_text (resp : PyVal) : Except Unit String :=
  match convVal resp with
  | some v => Except.ok v
  | Option.none =>
    let candidates := candidatesOf resp
    if pyTruthy candidates then
      match pyIter candidates with
      | some cs =>
        match candsTexts cs with
        | Except.ok texts =>
          if texts.isEmpty then Except.ok ""
          else Except.ok (String.intercalate "\n" texts)
        | Except.error e => Except.error e
      | Option.none => Except.error ()
    else Except.ok ""

example : _out_text (PyVal.obj [("text", PyVal.str "hello")]) = Except.ok "hello" := by decide
example : _out_text (PyVal.dict [("text", PyVal.str "hello")]) = Except.ok "" := by decide
example :
    _out_text (PyVal.obj [("candidates", PyVal.list
      [PyVal.obj [("content", PyVal.obj [("parts", PyVal.list
        [PyVal.obj [("text", PyVal.str "a")], PyVal.obj [("text", PyVal.str "b")]])])]])])
      = Except.ok "a\nb" := by decide
example :
    _out_text (PyVal.obj [("candidates", PyVal.obj [("x", PyVal.str "y")])])
      = Except.error () := by decide

/-! ## Request schemas and validation (main.py lines 109-124)

Floats are modelled as rationals.  A field of type `Option τ` is `none`
when the client sends an explicit JSON `null`; when the field is absent
pydantic fills in the declared default, so an absent field arrives at
the handler as `some default` (or, for fields defaulting to `None`, as
`none`).  Validation happens in FastAPI before the handler body runs, so
`valid r = false` means the request is rejected with a client error
before any provider call. -/

structure PromptRequest where
  prompt : String
  model : Option String
  system : Option String
  max_output_tokens : Option Int
  temperature : Option Rat
  deriving DecidableEq

structure ChatMessage where
  role : String
  content : String
  deriving DecidableEq

structure ChatRequest where
  messages : List ChatMessage
  model : Option String
  max_output_tokens : Option Int
  temperature : Option Rat
  deriving DecidableEq

/-- Pydantic validation of `PromptRequest` (lines 109-114): `prompt`,
`model`, `system` are only type-checked; `max_output_tokens` carries
`ge=1, le=8192` and `temperature` carries `ge=0.0, le=2.0`, each
enforced only on non-`None` values. -/
def PromptRequest.valid (r : PromptRequest) : Bool :=
  (match r.max_output_tokens with
   | some v => decide (1 ≤ v) && decide (v ≤ 8192)
   | Option.none => true) &&
  (match r.temperature with
   | some t => decide (0 ≤ t) && decide (t ≤ 2)
   | Option.none => true)

/-- The `pattern="^(user|model)$"` constraint on `ChatMessage.role`
(line 117). -/
def ChatMessage.roleOk (role : String) : Bool :=
  role == "user" || role == "model"

/-- Pydantic validation of `ChatRequest` (lines 120-124): each message's
role must match the pattern; `messages`, `model`, `max_output_tokens`
and `temperature` carry no constraints beyond their types (the numeric
fields of `ChatRequest` have plain defaults, no `Field(ge=..., le=...)`). -/
def ChatRequest.valid (r : ChatRequest) : Bool :=
  r.messages.all (fun m => ChatMessage.roleOk m.role)

/-! ## Generation config construction (lines 140-145, 161-166, 188-193)

Each handler builds `types.GenerateContentConfig(temperature =
req.temperature or 0.3, max_output_tokens = req.max_output_tokens or
1024, ...)`.  Python's `or` yields the right operand when the left one
is falsy, and `None`, `0` and `0.0` are all falsy. -/

structure GenConfig where
  temperature : Rat
  max_output_tokens : Int
  deriving DecidableEq

/-- Python `x or d` for an optional float `x`: `None` and `0.0` are
falsy. -/
def pyOrRat (x : Option Rat) (d : Rat) : Rat :=
  match x with
  | some v => if v = 0 then d else v
  | Option.none => d

/-- Python `x or d` for an optional int `x`: `None` and `0` are falsy. -/
def pyOrInt (x : Option Int) (d : Int) : Int :=
  match x with
  | some v => if v = 0 then d else v
  | Option.none => d

/-- The config built by the `/prompt` handler (lines 140-145). -/
def promptConfig (req : PromptRequest) : GenConfig :=
  { temperature := pyOrRat req.temperature (3/10)
    max_output_tokens := pyOrInt req.max_output_tokens 1024 }

/-- The config built by the `/chat` handler (lines 161-166). -/
def chatConfig (req : ChatRequest) : GenConfig :=
  { temperature := pyOrRat req.temperature (3/10)
    max_output_tokens := pyOrInt req.max_output_tokens 1024 }

/-- The config built by the `/stream` handler (lines 188-193). -/
def streamConfig (req : PromptRequest) : GenConfig :=
  { temperature := pyOrRat req.temperature (3/10)
    max_output_tokens := pyOrInt req.max_output_tokens 1024 }

/-! ## The streaming relay `event_gen` (main.py lines 175-207)

The provider's chunk iterator is modelled as the list of `text` values
of the chunks it yields (`none` for a chunk without text), followed by
an optional failure: `failure = some e` means the iteration (or the
initial `generate_content_stream` call, when `chunks = []`) raises an
exception whose `str` is `e` after the listed chunks were delivered. -/

structure ProviderStream where
  chunks : List (Option String)
  failure : Option String

/-- One SSE event emitted by `event_gen`: the JSON payloads
`{"delta": s}`, `{"final": s}` and the `event: error` frame
`{"error": s}`. -/
inductive StreamEvent where
  | delta (s : String)
  | finalEv (s : String)
  | errorEv (s : String)
  deriving DecidableEq

/-- The `for chunk in stream_iter` loop (lines 196-200): for each chunk,
`delta = getattr(chunk, "text", None)`; if truthy it is appended to
`final` and a delta event is emitted.  Returns the emitted events and
the accumulated `final` list. -/
def runChunks : List (Option String) → List StreamEvent × List String
  | [] => ([], [])
  | c :: cs =>
    let rest := runChunks cs
    match c with
    | some t =>
      if t == "" then rest
      else (StreamEvent.delta t :: rest.1, t :: rest.2)
    | Option.none => rest

/-- The whole `event_gen` generator (lines 175-207): on normal
exhaustion one final event with `''.join(final)` is appended (line 203);
if the provider raises after the listed chunks, the `except` branch
emits a single error event instead (lines 205-207). -/
def event_gen (s : ProviderStream) : List StreamEvent :=
  let r := runChunks s.chunks
  match s.failure with
  | Option.none => r.1 ++ [StreamEvent.finalEv (String.join r.2)]
  | some e => r.1 ++ [StreamEvent.errorEv e]

/-- The `/stream` handler returns `StreamingResponse(event_gen(), ...)`
with the default HTTP status (lines 209-217); errors inside the
generator never change the status. -/
def streamStatus (_req : PromptRequest) : Nat := 200

example :
    event_gen { chunks := [some "Hel", some "lo"], failure := Option.none }
      = [StreamEvent.delta "Hel", StreamEvent.delta "lo", StreamEvent.finalEv "Hello"] := by
  decide

/-! ## JSON values and a model of `json.loads`

`_err` (main.py lines 75-89) runs `re.search(r"\x7b.*\x7d$", detail,
re.S)` and, on a match, `json.loads` on the matched span.  We model
JSON values (`JVal`) and a recursive-descent parser following the JSON
grammar accepted by `json.loads`: objects, arrays, strings with the
standard escapes, numbers, `true`/`false`/`null`, with strict rejection
of raw control characters in strings.  Numbers are kept exactly as
`mantissa * 10 ^ exp10`.  Python's non-standard `NaN`/`Infinity`
extension and lone-surrogate escapes are not modelled (no claim
involves them; a surrogate `\uXXXX` outside a valid pair is mapped
through `Char.ofNat`). -/

inductive JVal where
  | null
  | bool (b : Bool)
  | num (mantissa : Int) (exp10 : Int)
  | str (s : String)
  | arr (xs : List JVal)
  | obj (fields : List (String × JVal))

/-- JSON whitespace accepted between tokens. -/
def jsonWs (c : Char) : Bool :=
  c = ' ' || c = '\t' || c = '\n' || c = '\r'

def skipWs : List Char → List Char
  | [] => []
  | c :: cs => if jsonWs c then skipWs cs else c :: cs

def hexVal (c : Char) : Option Nat :=
  if '0' ≤ c ∧ c ≤ '9' then some (c.toNat - 48)
  else if 'a' ≤ c ∧ c ≤ 'f' then some (c.toNat - 87)
  else if 'A' ≤ c ∧ c ≤ 'F' then some (c.toNat - 55)
  else Option.none

/-- Decode a `\uXXXX` escape starting right after the `u`, combining a
high surrogate with a following `\uXXXX` low surrogate when present.
Returns the decoded character and the remaining input. -/
def parseUEscape (cs2 : List Char) : Option (Char × List Char) :=
  match cs2 with
  | h1 :: h2 :: h3 :: h4 :: cs3 =>
    match hexVal h1, hexVal h2, hexVal h3, hexVal h4 with
    | some a, some b, some c3, some d =>
      let code := ((a * 16 + b) * 16 + c3) * 16 + d
      if 0xd800 ≤ code ∧ code ≤ 0xdbff then
        match cs3 with
        | '\\' :: 'u' :: g1 :: g2 :: g3 :: g4 :: cs4 =>
          match hexVal g1, hexVal g2, hexVal g3, hexVal g4 with
          | some a2, some b2, some c2, some d2 =>
            let low := ((a2 * 16 + b2) * 16 + c2) * 16 + d2
            if 0xdc00 ≤ low ∧ low ≤ 0xdfff then
              some (Char.ofNat (0x10000 + (code - 0xd800) * 0x400 + (low - 0xdc00)), cs4)
            else some (Char.ofNat code, cs3)
          | _, _, _, _ => some (Char.ofNat code, cs3)
        | _ => some (Char.ofNat code, cs3)
      else some (Char.ofNat code, cs3)
    | _, _, _, _ => Option.none
  | _ => Option.none

/-- Parse the rest of a JSON string after the opening quote, handling
the escapes `\" \\ \/ \b \f \n \r \t \uXXXX` (with surrogate-pair
combination) and rejecting raw control characters, as `json.loads`
does in its default strict mode.  Each step consumes at least one input
character, so the fuel supplied by `parseJString` never runs out. -/
def parseStringRest : Nat → List Char → List Char → Option (String × List Char)
  | 0, _, _ => Option.none
  | _ + 1, _, [] => Option.none
  | fuel + 1, acc, c :: cs =>
    if c = '"' then some (String.mk acc.reverse, cs)
    else if c = '\\' then
      match cs with
      | [] => Option.none
      | e :: cs2 =>
        if e = '"' then parseStringRest fuel ('"' :: acc) cs2
        else if e = '\\' then parseStringRest fuel ('\\' :: acc) cs2
        else if e = '/' then parseStringRest fuel ('/' :: acc) cs2
        else if e = 'b' then parseStringRest fuel ('\x08' :: acc) cs2
        else if e = 'f' then parseStringRest fuel ('\x0c' :: acc) cs2
        else if e = 'n' then parseStringRest fuel ('\n' :: acc) cs2
        else if e = 'r' then parseStringRest fuel ('\r' :: acc) cs2
        else if e = 't' then parseStringRest fuel ('\t' :: acc) cs2
        else if e = 'u' then
          match parseUEscape cs2 with
          | some p => parseStringRest fuel (p.1 :: acc) p.2
          | Option.none => Option.none
        else Option.none
    else if c.toNat < 32 then Option.none
    else parseStringRest fuel (c :: acc) cs

/-- Parse a JSON string body (input starts right after the opening
quote). -/
def parseJString (cs : List Char) : Option (String × List Char) :=
  parseStringRest (cs.length + 1) [] cs

/-- Longest prefix of decimal digits. -/
def takeDigits : List Char → List Char × List Char
  | [] => ([], [])
  | c :: cs =>
    if c.isDigit then
      let r := takeDigits cs
      (c :: r.1, r.2)
    else ([], c :: cs)

def natOfDigits (ds : List Char) : Nat :=
  ds.foldl (fun a c => a * 10 + (c.toNat - 48)) 0

/-- Parse a JSON number literal `-?(0|[1-9][0-9]*)(.[0-9]+)?([eE][+-]?[0-9]+)?`
into `JVal.num mantissa exp10`. -/
def parseNumber (cs : List Char) : Option (JVal × List Char) :=
  let signed : Bool × List Char :=
    match cs with
    | '-' :: rest => (true, rest)
    | _ => (false, cs)
  match signed.2 with
  | [] => Option.none
  | c :: rest =>
    if !c.isDigit then Option.none
    else
      let intPart : List Char × List Char :=
        if c = '0' then (['0'], rest)
        else
          let r := takeDigits rest
          (c :: r.1, r.2)
      let fracPart : Option (List Char × List Char) :=
        match intPart.2 with
        | '.' :: rest2 =>
          let r := takeDigits rest2
          if r.1.isEmpty then Option.none else some (r.1, r.2)
        | _ => some ([], intPart.2)
      match fracPart with
      | Option.none => Option.none
      | some (fd, cs3) =>
        let expPart : Option (Int × List Char) :=
          match cs3 with
          | e :: rest3 =>
            if e = 'e' ∨ e = 'E' then
              let esigned : Bool × List Char :=
                match rest3 with
                | '+' :: r4 => (false, r4)
                | '-' :: r4 => (true, r4)
                | _ => (false, rest3)
              let r := takeDigits esigned.2
              if r.1.isEmpty then Option.none
              else
                let ev : Int := Int.ofNat (natOfDigits r.1)
                some (if esigned.1 then -ev else ev, r.2)
            else some (0, cs3)
          | [] => some (0, [])
        match expPart with
        | Option.none => Option.none
        | some (ev, cs4) =>
          let mNat := natOfDigits (intPart.1 ++ fd)
          let m : Int := if signed.1 then -(Int.ofNat mNat) else Int.ofNat mNat
          some (JVal.num m (ev - Int.ofNat fd.length), cs4)

mutual

/-- Parse one JSON value (fuel-indexed recursive descent; the fuel used
by `jsonLoads` is always sufficient). -/
def parseVal : Nat → List Char → Option (JVal × List Char)
  | 0, _ => Option.none
  | fuel + 1, cs =>
    match skipWs cs with
    | [] => Option.none
    | c :: rest =>
      if c = '\x7b' then parseObjBody fuel rest
      else if c = '[' then parseArrBody fuel rest
      else if c = '"' then
        match parseJString rest with
        | some (s, rest2) => some (JVal.str s, rest2)
        | Option.none => Option.none
      else if c = 't' then
        match rest with
        | 'r' :: 'u' :: 'e' :: rest2 => some (JVal.bool true, rest2)
        | _ => Option.none
      else if c = 'f' then
        match rest with
        | 'a' :: 'l' :: 's' :: 'e' :: rest2 => some (JVal.bool false, rest2)
        | _ => Option.none
      else if c = 'n' then
        match rest with
        | 'u' :: 'l' :: 'l' :: rest2 => some (JVal.null, rest2)
        | _ => Option.none
      else parseNumber (c :: rest)

/-- Parse an object body after the opening brace. -/
def parseObjBody : Nat → List Char → Option (JVal × List Char)
  | 0, _ => Option.none
  | fuel + 1, cs =>
    match skipWs cs with
    | '\x7d' :: rest => some (JVal.obj [], rest)
    | cs2 => parseMembers fuel cs2 []

/-- Parse `"key": value` members separated by commas, up to the closing
brace. -/
def parseMembers : Nat → List Char → List (String × JVal) → Option (JVal × List Char)
  | 0, _, _ => Option.none
  | fuel + 1, cs, acc =>
    match skipWs cs with
    | '"' :: rest =>
      match parseJString rest with
      | some (k, rest2) =>
        match skipWs rest2 with
        | ':' :: rest3 =>
          match parseVal fuel rest3 with
          | some (v, rest4) =>
            match skipWs rest4 with
            | ',' :: rest5 => parseMembers fuel rest5 (acc ++ [(k, v)])
            | '\x7d' :: rest5 => some (JVal.obj (acc ++ [(k, v)]), rest5)
            | _ => Option.none
          | Option.none => Option.none
        | _ => Option.none
      | Option.none => Option.none
    | _ => Option.none

/-- Parse an array body after the opening bracket. -/
def parseArrBody : Nat → List Char → Option (JVal × List Char)
  | 0, _ => Option.none
  | fuel + 1, cs =>
    match skipWs cs with
    | ']' :: rest => some (JVal.arr [], rest)
    | cs2 => parseElems fuel cs2 []

/-- Parse comma-separated array elements up to the closing bracket. -/
def parseElems : Nat → List Char → List JVal → Option (JVal × List Char)
  | 0, _, _ => Option.none
  | fuel + 1, cs, acc =>
    match parseVal fuel cs with
    | some (v, rest) =>
      match skipWs rest with
      | ',' :: rest2 => parseElems fuel rest2 (acc ++ [v])
      | ']' :: rest2 => some (JVal.arr (acc ++ [v]), rest2)
      | _ => Option.none
    | Option.none => Option.none

end

/-- `json.loads`: parse a complete JSON document; trailing non-space
input is an error ("Extra data"). -/
def jsonLoads (s : String) : Option JVal :=
  let cs := s.toList
  match parseVal (4 * cs.length + 8) cs with
  | some (v, rest) => if (skipWs rest).isEmpty then some v else Option.none
  | Option.none => Option.none

/-- Dict lookup on a parsed object: duplicate keys in the source were
overwritten in insertion order by `json.loads`, so the LAST occurrence
wins. -/
def jLookupLast (fields : List (String × JVal)) (k : String) : Option JVal :=
  match fields with
  | [] => Option.none
  | (k0, v) :: rest =>
    match jLookupLast rest k with
    | some v2 => some v2
    | Option.none => if k0 = k then some v else Option.none

/-- Python truthiness of a decoded JSON value (used by
`if provider_msg:`). -/
def jTruthy : JVal → Bool
  | .null => false
  | .bool b => b
  | .num m _ => !(m == 0)
  | .str s => !(s == "")
  | .arr xs => !xs.isEmpty
  | .obj fields => !fields.isEmpty

/-- The result of `re.search(r"\x7b.*\x7d$", detail, re.S)`: the span
from the FIRST opening brace of `detail` to its final closing brace,
provided `detail` ends with a closing brace (`$` also matches just
before one trailing newline).  Greediness makes the span always start
at the first brace of the whole text, never at a later one. -/
def jsonTail (detail : String) : Option String :=
  let cs := detail.toList
  let body := match cs.getLast? with
              | some c => if c = '\n' then cs.dropLast else cs
              | Option.none => cs
  match cs.findIdx? (fun c => c = '\x7b') with
  | some i =>
    if body.getLast? == some '\x7d' then some (String.mk (body.drop i))
    else Option.none
  | Option.none => Option.none

/-- The envelope message computed by `_err(detail)` (main.py lines
75-89): start from the raw `detail`; if the tail regex matches and the
span parses as JSON, take `j.get("error", \x7b\x7d).get("message")` and
use it when truthy; every failure along the way (no match, parse error,
`.get` on a non-dict raising `AttributeError`, missing or falsy
message) silently keeps the raw text. -/
def _err_message (detail : String) : JVal :=
  match jsonTail detail with
  | Option.none => JVal.str detail
  | some tail =>
    match jsonLoads tail with
    | Option.none => JVal.str detail
    | some j =>
      match j with
      | JVal.obj fields =>
        match (jLookupLast fields "error").getD (JVal.obj []) with
        | JVal.obj efields =>
          match jLookupLast efields "message" with
          | some m => if jTruthy m then m else JVal.str detail
          | Option.none => JVal.str detail
        | _ => JVal.str detail
      | _ => JVal.str detail

/-- The full envelope raised by `_err(str(e))` at the two synchronous
handlers (lines 154 and 170): a 500 response whose detail is
`\x7b"code": code, "message": msg\x7d`. -/
structure ErrorEnvelope where
  status : Nat
  code : String
  message : JVal

def _err_envelope (detail : String) : ErrorEnvelope :=
  { status := 500, code := "GENERATION_ERROR", message := _err_message detail }

example : _err_message "boom" = JVal.str "boom" := rfl
example :
    _err_message "Error 429 \x7b\"error\": \x7b\"message\": \"quota exceeded\"\x7d\x7d"
      = JVal.str "quota exceeded" := rfl
example :
    _err_message "oops \x7bbad\x7d tail \x7b\"error\": \x7b\"message\": \"quota exceeded\"\x7d\x7d"
      = JVal.str "oops \x7bbad\x7d tail \x7b\"error\": \x7b\"message\": \"quota exceeded\"\x7d\x7d" := rfl

/-! ## Logical response values and their object/dict realizations

The spec treats the provider response as a logical value — optional
convenience text fields, an optional ordered `candidates` sequence of
candidates, each with optional `content` holding an optional `parts`
sequence of parts with an optional `text` — whose concrete
representation at each object level may be either attribute-style or
mapping-style.  `U…` are the logical (representation-erased) shapes;
`L…` tag every object level with a representation style; `realize…`
produces the concrete `PyVal` the code receives. -/

inductive Sty where
  | o
  | d
  deriving DecidableEq

structure UPart where
  text : Option String
  deriving DecidableEq

structure UContent where
  parts : Option (List UPart)
  deriving DecidableEq

structure UCand where
  content : Option UContent
  deriving DecidableEq

structure UResp where
  text : Option String
  outputText : Option String
  candidates : Option (List UCand)
  deriving DecidableEq

structure LPart where
  sty : Sty
  text : Option String

structure LContent where
  sty : Sty
  parts : Option (List LPart)

structure LCand where
  sty : Sty
  content : Option LContent

structure LResp where
  sty : Sty
  text : Option String
  outputText : Option String
  candidates : Option (List LCand)

/-- Build an attribute-style object or a mapping from a field list. -/
def mkNode : Sty → List (String × PyVal) → PyVal
  | Sty.o, fs => PyVal.obj fs
  | Sty.d, fs => PyVal.dict fs

/-- A field that is present only when the logical value has it. -/
def optField (name : String) (v : Option PyVal) : List (String × PyVal) :=
  match v with
  | some x => [(name, x)]
  | Option.none => []

def realizePart (p : LPart) : PyVal :=
  mkNode p.sty (optField "text" (p.text.map PyVal.str))

def realizeContent (c : LContent) : PyVal :=
  mkNode c.sty (optField "parts" (c.parts.map (fun ps => PyVal.list (ps.map realizePart))))

def realizeCand (c : LCand) : PyVal :=
  mkNode c.sty (optField "content" (c.content.map realizeContent))

def realizeResp (r : LResp) : PyVal :=
  mkNode r.sty
    (optField "text" (r.text.map PyVal.str) ++
     optField "output_text" (r.outputText.map PyVal.str) ++
     optField "candidates" (r.candidates.map (fun cs => PyVal.list (cs.map realizeCand))))

def erasePart (p : LPart) : UPart := ⟨p.text⟩

def eraseContent (c : LContent) : UContent := ⟨c.parts.map (List.map erasePart)⟩

def eraseCand (c : LCand) : UCand := ⟨c.content.map eraseContent⟩

def eraseResp (r : LResp) : UResp :=
  ⟨r.text, r.outputText, r.candidates.map (List.map eraseCand)⟩

/-! Spec-level extraction over logical values (spec section 4.2): the
prioritized fallback chain — non-blank convenience field first, else the
newline-joined part texts across candidates, else the empty string. -/

def collectParts (ps : List UPart) : List String :=
  ps.filterMap (fun p =>
    match p.text with
    | some t => if t == "" then Option.none else some t
    | Option.none => Option.none)

def collectCand (c : UCand) : List String :=
  match c.content with
  | some ct =>
    match ct.parts with
    | some ps => collectParts ps
    | Option.none => []
  | Option.none => []

def collectResp (r : UResp) : List String :=
  match r.candidates with
  | some cs => (cs.map collectCand).flatten
  | Option.none => []

/-- Is an optional convenience field blank (absent or whitespace-only)? -/
def blankStr (o : Option String) : Bool :=
  match o with
  | some s => !pyStripTruthy s
  | Option.none => true

/-- The non-blank convenience field, `text` before `output_text`. -/
def convPick (r : UResp) : Option String :=
  match r.text with
  | some s =>
    if pyStripTruthy s then some s
    else
      match r.outputText with
      | some s2 => if pyStripTruthy s2 then some s2 else Option.none
      | Option.none => Option.none
  | Option.none =>
    match r.outputText with
    | some s2 => if pyStripTruthy s2 then some s2 else Option.none
    | Option.none => Option.none

/-- What extraction yields on a realized logical value: convenience
fields are visible only on an attribute-style top level. -/
def extractSpec : Sty → UResp → String
  | Sty.o, r =>
    match convPick r with
    | some v => v
    | Option.none => String.intercalate "\n" (collectResp r)
  | Sty.d, r => String.intercalate "\n" (collectResp r)

/-! Refinement: `_out_text` on any realization equals `extractSpec` on
the erased logical value. -/

theorem fieldOf_mkNode (s : Sty) (fs : List (String × PyVal)) (n : String) :
    fieldOf (mkNode s fs) n = assocGet fs n := by
  cases s <;> rfl

theorem partText_realize (p : LPart) :
    partText (realizePart p) =
      (match p.text with
       | some t => if t == "" then Option.none else some t
       | Option.none => Option.none) := by
  obtain ⟨s, t⟩ := p
  cases s <;> cases t <;>
    simp [realizePart, partText, fieldOf, pyGetattr, mkNode, optField, assocGet]

theorem partsTexts_realize (ps : List LPart) :
    partsTexts (ps.map realizePart) = collectParts (ps.map erasePart) := by
  simp only [partsTexts, collectParts, List.filterMap_map]
  congr 1
  funext p
  simp only [Function.comp_apply, partText_realize, erasePart]

theorem candTexts_realize (c : LCand) :
    candTexts (realizeCand c) = Except.ok (collectCand (eraseCand c)) := by
  obtain ⟨s, ct⟩ := c
  cases ct with
  | none =>
    cases s <;>
      simp [realizeCand, candTexts, eraseCand, collectCand, mkNode, optField,
        fieldOf, pyGetattr, assocGet, pyTruthy]
  | some ct =>
    obtain ⟨s2, ps⟩ := ct
    cases ps with
    | none =>
      cases s <;> cases s2 <;>
        simp [realizeCand, realizeContent, candTexts, eraseCand, eraseContent,
          collectCand, mkNode, optField, fieldOf, pyGetattr, assocGet, pyTruthy]
    | some ps =>
      cases ps with
      | nil =>
        cases s <;> cases s2 <;>
          simp [realizeCand, realizeContent, candTexts, eraseCand, eraseContent,
            collectCand, collectParts, mkNode, optField, fieldOf, pyGetattr,
            assocGet, pyTruthy]
      | cons p ps =>
        cases s <;> cases s2 <;>
          simpa [realizeCand, realizeContent, candTexts, eraseCand, eraseContent,
            collectCand, mkNode, optField, fieldOf, pyGetattr, assocGet, pyTruthy,
            pyIter] using partsTexts_realize (p :: ps)

theorem candsTexts_realize (cs : List LCand) :
    candsTexts (cs.map realizeCand) =
      Except.ok (((cs.map eraseCand).map collectCand).flatten) := by
  induction cs with
  | nil => rfl
  | cons c cs ih =>
    simp only [List.map_cons, candsTexts, candTexts_realize, ih, List.flatten_cons]
    rfl

theorem convVal_realize (t : LResp) :
    convVal (realizeResp t) =
      (match t.sty with
       | Sty.o => convPick (eraseResp t)
       | Sty.d => Option.none) := by
  obtain ⟨s, tx, ot, cands⟩ := t
  cases s <;> cases tx <;> cases ot <;> cases cands <;>
      simp [realizeResp, eraseResp, convVal, convCheck, convPick, mkNode, optField,
        pyGetattr, assocGet] <;>
    (repeat' split) <;> simp_all

theorem candidatesOf_realize (t : LResp) :
    candidatesOf (realizeResp t) =
      (match t.candidates with
       | some cs => PyVal.list (cs.map realizeCand)
       | Option.none => PyVal.none) := by
  obtain ⟨s, tx, ot, cands⟩ := t
  cases s <;> cases tx <;> cases ot <;> cases cands <;>
    simp [realizeResp, candidatesOf, mkNode, optField, pyGetattr, assocGet]

theorem intercalate_nil_eq : String.intercalate "\n" [] = "" := rfl

theorem outText_realize (t : LResp) :
    _out_text (realizeResp t) = Except.ok (extractSpec t.sty (eraseResp t)) := by
  unfold _out_text
  rw [convVal_realize]
  have walk :
      (if pyTruthy (candidatesOf (realizeResp t)) = true then
        match pyIter (candidatesOf (realizeResp t)) with
        | some cs =>
          match candsTexts cs with
          | Except.ok texts =>
            if texts.isEmpty then Except.ok ""
            else Except.ok (String.intercalate "\n" texts)
          | Except.error e => Except.error e
        | Option.none => Except.error ()
      else Except.ok "") =
        Except.ok (String.intercalate "\n" (collectResp (eraseResp t))) := by
    rw [candidatesOf_realize]
    cases hcs : t.candidates with
    | none => simp [pyTruthy, collectResp, eraseResp, hcs, intercalate_nil_eq]
    | some cs =>
      cases cs with
      | nil => simp [pyTruthy, collectResp, eraseResp, hcs, intercalate_nil_eq]
      | cons c cs =>
        have hr := candsTexts_realize (c :: cs)
        simp only [List.map_cons] at hr
        simp only [pyTruthy, List.isEmpty_cons, Bool.not_false, pyIter,
          List.map_cons, if_true, hr]
        simp only [collectResp, eraseResp, hcs, List.map_cons, List.flatten_cons,
          List.map_map]
        by_cases hT :
            collectCand (eraseCand c) ++ (List.map (collectCand ∘ eraseCand) cs).flatten = []
        · simp [hT, intercalate_nil_eq]
        · simp [hT]
  cases t.sty with
  | o =>
    cases hc : convPick (eraseResp t) with
    | some v => simp [extractSpec, hc]
    | none => simpa [extractSpec, hc] using walk
  | d => simpa [extractSpec] using walk

/-! ## Claim theorems -/

/-- The texts of the chunks that trigger a delta event: chunk texts that
are present and non-empty, in arrival order. -/
def chunkTexts (chunks : List (Option String)) : List String :=
  chunks.filterMap (fun c =>
    match c with
    | some t => if t == "" then Option.none else some t
    | Option.none => Option.none)

theorem runChunks_spec (chunks : List (Option String)) :
    runChunks chunks = ((chunkTexts chunks).map StreamEvent.delta, chunkTexts chunks) := by
  induction chunks with
  | nil => rfl
  | cons c cs ih =>
    cases c with
    | none => simpa [runChunks, chunkTexts, List.filterMap_cons] using ih
    | some t =>
      by_cases h : t == "" <;>
        simp_all [runChunks, chunkTexts, List.filterMap_cons]

/-- On a failing stream, the events are the deltas of the chunks
delivered before the failure followed by one error event. -/
theorem event_gen_fail (chunks : List (Option String)) (e : String) :
    event_gen ⟨chunks, some e⟩ =
      (chunkTexts chunks).map StreamEvent.delta ++ [StreamEvent.errorEv e] := by
  unfold event_gen
  rw [runChunks_spec]

def StreamEvent.isDel : StreamEvent → Bool
  | .delta _ => true
  | _ => false

def StreamEvent.isFin : StreamEvent → Bool
  | .finalEv _ => true
  | _ => false

def StreamEvent.isErrEv : StreamEvent → Bool
  | .errorEv _ => true
  | _ => false

/-- C7: for every provider chunk sequence consumed without error, the
`/stream` generator emits exactly one delta event per chunk with
non-empty text, in arrival order, followed by exactly one final event
carrying the concatenation of all deltas in emission order; in
particular chunks `["Hel", "lo"]` produce exactly
`delta "Hel", delta "lo", final "Hello"`. -/
theorem C7_stream_order :
    (∀ chunks : List (Option String),
      event_gen ⟨chunks, Option.none⟩ =
        (chunkTexts chunks).map StreamEvent.delta ++
          [StreamEvent.finalEv (String.join (chunkTexts chunks))]) ∧
    event_gen ⟨[some "Hel", some "lo"], Option.none⟩ =
      [StreamEvent.delta "Hel", StreamEvent.delta "lo", StreamEvent.finalEv "Hello"] := by
  constructor
  · intro chunks
    unfold event_gen
    rw [runChunks_spec]
  · decide

/-- C9: when the provider raises mid-stream, the generator emits exactly
one error-tagged event, it is the last event, no final event is emitted,
and the HTTP status of the `/stream` response stays 200 (the error is
surfaced inside the already-open stream, not as an HTTP error status). -/
theorem C9_stream_mid_failure :
    ∀ (chunks : List (Option String)) (e : String),
      ((event_gen ⟨chunks, some e⟩).filter StreamEvent.isErrEv).length = 1 ∧
      ((event_gen ⟨chunks, some e⟩).filter StreamEvent.isFin).length = 0 ∧
      (event_gen ⟨chunks, some e⟩).getLast? = some (StreamEvent.errorEv e) ∧
      (∀ req : PromptRequest, streamStatus req = 200) := by
  intro chunks e
  rw [event_gen_fail]
  refine ⟨?_, ?_, ?_, fun _ => rfl⟩
  · induction chunkTexts chunks with
    | nil => rfl
    | cons t ts ih => simp [StreamEvent.isErrEv, ih]
  · induction chunkTexts chunks with
    | nil => rfl
    | cons t ts ih => simp [StreamEvent.isFin, ih]
  · rw [List.getLast?_append]
    rfl

/-- C10: when a streaming request fails, the error event's message is
the raw exception text verbatim; the trailing-JSON extraction heuristic
of `_err` is not applied — witnessed by an error text on which `_err`
would extract a different message while the stream event still carries
the raw text. -/
theorem C10_stream_raw_error_text :
    (∀ (chunks : List (Option String)) (e : String),
      (event_gen ⟨chunks, some e⟩).getLast? = some (StreamEvent.errorEv e)) ∧
    event_gen ⟨[], some "429 \x7b\"error\": \x7b\"message\": \"quota exceeded\"\x7d\x7d"⟩ =
      [StreamEvent.errorEv "429 \x7b\"error\": \x7b\"message\": \"quota exceeded\"\x7d\x7d"] ∧
    _err_message "429 \x7b\"error\": \x7b\"message\": \"quota exceeded\"\x7d\x7d" =
      JVal.str "quota exceeded" := by
  refine ⟨?_, rfl, rfl⟩
  intro chunks e
  rw [event_gen_fail, List.getLast?_append]
  rfl

/-- C1 counterexample: the claim that validation rejects empty
prompts/message lists is false — `prompt` has no minimum length,
`messages` has no minimum size and `content` no emptiness constraint,
so all three requests below pass validation. -/
theorem C1_cex :
    PromptRequest.valid ⟨"", Option.none, Option.none, some 1024, some 1⟩ = true ∧
    ChatRequest.valid ⟨[], Option.none, some 1024, some 1⟩ = true ∧
    ChatRequest.valid ⟨[⟨"user", ""⟩], Option.none, some 1024, some 1⟩ = true := by
  refine ⟨by decide, rfl, by decide⟩

/-- C1 amended: request validation does not inspect emptiness at all —
`PromptRequest` validation is independent of the prompt text (it checks
only the numeric ranges), and `ChatRequest` validation checks exactly
that every role is `user` or `model`, accepting an empty message list
and empty message contents. -/
theorem C1_amended :
    (∀ r : PromptRequest,
      PromptRequest.valid r = PromptRequest.valid { r with prompt := "" }) ∧
    (∀ r : ChatRequest,
      ChatRequest.valid r = r.messages.all (fun m => ChatMessage.roleOk m.role)) ∧
    (∀ (mo : Option String) (mt : Option Int) (t : Option Rat),
      ChatRequest.valid ⟨[], mo, mt, t⟩ = true) := by
  exact ⟨fun _ => rfl, fun _ => rfl, fun _ _ _ => rfl⟩

/-- C2 counterexample: `/chat` does not validate the numeric ranges — a
`ChatRequest` with temperature 5.0 and max_output_tokens 9999 passes
validation and reaches the handler (its `ChatRequest` fields carry no
`ge`/`le` constraints, unlike `PromptRequest`). -/
theorem C2_cex :
    ChatRequest.valid ⟨[⟨"user", "hi"⟩], Option.none, some 9999, some 5⟩ = true := by
  decide

/-- C2 amended: out-of-range `temperature` or `max_output_tokens` are
rejected at validation for the two handlers that take a `PromptRequest`
(`/prompt` and `/stream`), but `ChatRequest` validation ignores both
numeric fields entirely, so out-of-range values reach `/chat`'s
handler. -/
theorem C2_amended :
    (∀ (r : PromptRequest) (t : Rat), r.temperature = some t → (t < 0 ∨ 2 < t) →
      PromptRequest.valid r = false) ∧
    (∀ (r : PromptRequest) (v : Int), r.max_output_tokens = some v → (v < 1 ∨ 8192 < v) →
      PromptRequest.valid r = false) ∧
    (∀ (r : ChatRequest) (mt : Option Int) (t : Option Rat),
      ChatRequest.valid { r with max_output_tokens := mt, temperature := t } =
        ChatRequest.valid r) := by
  refine ⟨?_, ?_, fun _ _ _ => rfl⟩
  · intro r t ht hb
    unfold PromptRequest.valid
    rw [ht]
    rcases hb with h | h
    · simp [not_le.mpr h]
    · simp [not_le.mpr h]
  · intro r v hv hb
    unfold PromptRequest.valid
    rw [hv]
    rcases hb with h | h
    · simp [not_le.mpr h]
    · simp [not_le.mpr h]

/-- C2 witness: a `PromptRequest` with temperature 3.0 (outside
[0.0, 2.0]) is rejected, via `C2_amended`. -/
theorem C2_amended_witness :
    PromptRequest.valid ⟨"hi", Option.none, Option.none, some 1024, some 3⟩ = false :=
  C2_amended.1 ⟨"hi", Option.none, Option.none, some 1024, some 3⟩ 3 rfl
    (Or.inr (by norm_num))

/-- C3: evaluation at the failing input.  A supplied temperature of 0.0
is legal per the schema (`ge=0.0`), but every handler builds its config
with `req.temperature or 0.3`, and Python's `or` treats 0.0 as falsy, so
the provider receives 0.3 instead of the requested 0.0. -/
theorem C3_temperature_zero_bug :
    (promptConfig ⟨"hi", Option.none, Option.none, some 1024, some 0⟩).temperature = 3/10 ∧
    (chatConfig ⟨[⟨"user", "hi"⟩], Option.none, some 1024, some 0⟩).temperature = 3/10 ∧
    (streamConfig ⟨"hi", Option.none, Option.none, some 1024, some 0⟩).temperature = 3/10 ∧
    ((3 : Rat)/10 ≠ 0) := by
  refine ⟨rfl, rfl, rfl, by norm_num⟩

/-- C4 counterexample: the same logical response value — a top-level
convenience field `text = "hello"` and no candidates — is realized
attribute-style and mapping-style; the Normalizer extracts "hello" from
the object but "" from the mapping, because the convenience fields are
probed with `getattr` only (a dict's keys are not attributes). -/
theorem C4_cex :
    eraseResp ⟨Sty.o, some "hello", Option.none, Option.none⟩ =
      eraseResp ⟨Sty.d, some "hello", Option.none, Option.none⟩ ∧
    _out_text (realizeResp ⟨Sty.o, some "hello", Option.none, Option.none⟩) =
      Except.ok "hello" ∧
    _out_text (realizeResp ⟨Sty.d, some "hello", Option.none, Option.none⟩) =
      Except.ok "" := by
  refine ⟨rfl, by decide, by decide⟩

/-- C4 amended: the Normalizer treats attribute-style and mapping-style
representations as equivalent at the candidates lookup and at every
level below it (candidate, content, parts, part text): two realizations
of the same logical value extract the same string whenever their
top-level styles agree, and also for differing top-level styles provided
the logical value carries no top-level convenience text fields — those
fields alone are read attribute-style only. -/
theorem C4_amended (t1 t2 : LResp)
    (herase : eraseResp t1 = eraseResp t2)
    (htop : t1.sty = t2.sty ∨
      ((eraseResp t1).text = Option.none ∧ (eraseResp t1).outputText = Option.none)) :
    _out_text (realizeResp t1) = _out_text (realizeResp t2) := by
  rw [outText_realize, outText_realize, herase]
  rcases htop with h | ⟨h1, h2⟩
  · rw [h]
  · rw [herase] at h1 h2
    cases t1.sty <;> cases t2.sty <;>
      simp [extractSpec, convPick, h1, h2]

/-- C4 witness: an all-object and an all-mapping realization of one
logical candidates tree extract the same string. -/
theorem C4_amended_witness :
    eraseResp ⟨Sty.o, Option.none, Option.none,
        some [⟨Sty.o, some ⟨Sty.o, some [⟨Sty.o, some "a"⟩]⟩⟩]⟩ =
      eraseResp ⟨Sty.d, Option.none, Option.none,
        some [⟨Sty.d, some ⟨Sty.d, some [⟨Sty.d, some "a"⟩]⟩⟩]⟩ ∧
    _out_text (realizeResp ⟨Sty.o, Option.none, Option.none,
        some [⟨Sty.o, some ⟨Sty.o, some [⟨Sty.o, some "a"⟩]⟩⟩]⟩) =
      _out_text (realizeResp ⟨Sty.d, Option.none, Option.none,
        some [⟨Sty.d, some ⟨Sty.d, some [⟨Sty.d, some "a"⟩]⟩⟩]⟩) :=
  ⟨rfl, C4_amended _ _ rfl (Or.inr ⟨rfl, rfl⟩)⟩

/-- C5 counterexample: a response whose `text` attribute is the
non-empty but whitespace-only string " " does NOT short-circuit the
convenience path — `val.strip()` is falsy — so the Normalizer walks the
candidates and returns "a" instead of " ", refuting the claim for
non-empty blank convenience values. -/
theorem C5_cex :
    _out_text (PyVal.obj [("text", PyVal.str " "),
        ("candidates", PyVal.list [PyVal.obj [("content", PyVal.obj [("parts",
          PyVal.list [PyVal.obj [("text", PyVal.str "a")]])])]])]) =
      Except.ok "a" ∧
    (Except.ok "a" : Except Unit String) ≠ Except.ok " " := by
  refine ⟨by decide, by decide⟩

/-- C5 amended: for every response value whose `text` attribute holds a
string that is non-empty AFTER whitespace-stripping, the Normalizer
returns that value immediately, regardless of what `candidates`
contains; the same holds for the `output_text` attribute when the
`text` attribute does not yield a non-blank string.  (Whitespace-only
strings do not count, and mapping-style convenience keys are never
consulted.) -/
theorem C5_amended :
    (∀ (resp : PyVal) (v : String),
      pyGetattr resp "text" = PyVal.str v → pyStripTruthy v = true →
      _out_text resp = Except.ok v) ∧
    (∀ (resp : PyVal) (v : String),
      convCheck resp "text" = Option.none →
      pyGetattr resp "output_text" = PyVal.str v → pyStripTruthy v = true →
      _out_text resp = Except.ok v) := by
  constructor
  · intro resp v hv hs
    have hc : convVal resp = some v := by
      unfold convVal convCheck
      rw [hv]
      simp [hs]
    unfold _out_text
    rw [hc]
  · intro resp v h0 hv hs
    have hc : convVal resp = some v := by
      unfold convVal
      rw [h0]
      unfold convCheck
      rw [hv]
      simp [hs]
    unfold _out_text
    rw [hc]

/-- C5 witness: a response with `text = "hi"` and a populated candidates
tree returns "hi" immediately, via `C5_amended`. -/
theorem C5_amended_witness :
    pyGetattr (PyVal.obj [("text", PyVal.str "hi"),
        ("candidates", PyVal.list [PyVal.obj [("content", PyVal.obj [("parts",
          PyVal.list [PyVal.obj [("text", PyVal.str "other")]])])]])]) "text" =
      PyVal.str "hi" ∧
    pyStripTruthy "hi" = true ∧
    _out_text (PyVal.obj [("text", PyVal.str "hi"),
        ("candidates", PyVal.list [PyVal.obj [("content", PyVal.obj [("parts",
          PyVal.list [PyVal.obj [("text", PyVal.str "other")]])])]])]) =
      Except.ok "hi" :=
  ⟨rfl, by decide, C5_amended.1 _ "hi" rfl (by decide)⟩

/-- Blank (absent or whitespace-only) convenience fields never produce a
convenience pick. -/
theorem convPick_blank (r : UResp) (h1 : blankStr r.text = true)
    (h2 : blankStr r.outputText = true) : convPick r = Option.none := by
  obtain ⟨tx, ot, cands⟩ := r
  cases tx <;> cases ot <;> simp_all [blankStr, convPick]

/-- C6 counterexample: a response with no convenience text field and no
extractable part text on which the Normalizer does NOT return "": its
truthy `candidates` attribute is a plain (non-iterable) object, so the
`for cand in candidates` loop raises a `TypeError` that propagates out
of the Normalizer, contradicting the claim that no exception
propagates. -/
theorem C6_cex :
    _out_text (PyVal.obj [("candidates",
        PyVal.obj [("finish_reason", PyVal.str "STOP")])]) = Except.error () ∧
    (Except.error () : Except Unit String) ≠ Except.ok "" := by
  refine ⟨by decide, by decide⟩

/-- C6 amended: for every response value whose convenience text fields
are blank (absent or whitespace-only, or hidden by a mapping-style top
level) and whose candidates collection — and each candidate's parts —
is a genuine sequence, the Normalizer returns the newline-separated
concatenation, in encountered order across all candidates, of every
part text that is a non-empty string, and in particular the empty
string when no such text exists; but when a truthy `candidates` (or
`parts`) value is a non-iterable object, a `TypeError` propagates
instead (see the counterexample). -/
theorem C6_amended (t : LResp)
    (h : t.sty = Sty.d ∨ (blankStr t.text = true ∧ blankStr t.outputText = true)) :
    _out_text (realizeResp t) =
      Except.ok (String.intercalate "\n" (collectResp (eraseResp t))) := by
  rw [outText_realize]
  rcases h with h | ⟨h1, h2⟩
  · rw [h]
    rfl
  · cases hs : t.sty
    · have hp : convPick (eraseResp t) = Option.none := convPick_blank _ h1 h2
      simp [extractSpec, hp]
    · rfl

/-- C6 witness: one candidate with two text parts "a" and "b" and no
convenience fields yields "a\nb", via `C6_amended`. -/
theorem C6_amended_witness :
    blankStr (Option.none : Option String) = true ∧
    _out_text (realizeResp ⟨Sty.o, Option.none, Option.none,
        some [⟨Sty.o, some ⟨Sty.o, some [⟨Sty.o, some "a"⟩, ⟨Sty.o, some "b"⟩]⟩⟩]⟩) =
      Except.ok "a\nb" :=
  ⟨rfl,
    (C6_amended ⟨Sty.o, Option.none, Option.none,
        some [⟨Sty.o, some ⟨Sty.o, some [⟨Sty.o, some "a"⟩, ⟨Sty.o, some "b"⟩]⟩⟩]⟩
      (Or.inr ⟨rfl, rfl⟩)).trans (by decide)⟩

/-- C8 counterexample: this error text ends in the embedded JSON object
`\x7b"error": \x7b"message": "quota exceeded"\x7d\x7d`, so the claim
says the envelope message is "quota exceeded"; but the regex
`\x7b.*\x7d$` matches greedily from the FIRST brace of the text, the
span `\x7bbad\x7d tail ...` is not valid JSON, `json.loads` raises, and
the envelope silently falls back to the raw text. -/
theorem C8_cex :
    _err_message "oops \x7bbad\x7d tail \x7b\"error\": \x7b\"message\": \"quota exceeded\"\x7d\x7d" =
      JVal.str "oops \x7bbad\x7d tail \x7b\"error\": \x7b\"message\": \"quota exceeded\"\x7d\x7d" ∧
    ("oops \x7bbad\x7d tail \x7b\"error\": \x7b\"message\": \"quota exceeded\"\x7d\x7d" : String) ≠
      "quota exceeded" := by
  refine ⟨rfl, by decide⟩

/-- C8 amended: the envelope message is the provider-supplied message
exactly when the span from the FIRST opening brace of the raw error
text to its end parses as a JSON object carrying a truthy
`error.message`; in every other case — no brace, no closing brace at
the end, an unparsable span (even one whose proper suffix is valid
JSON), or a missing/falsy message — the raw error text is surfaced
verbatim. -/
theorem C8_amended :
    (∀ (detail tail : String) (fields efields : List (String × JVal)) (m : JVal),
      jsonTail detail = some tail →
      jsonLoads tail = some (JVal.obj fields) →
      jLookupLast fields "error" = some (JVal.obj efields) →
      jLookupLast efields "message" = some m →
      jTruthy m = true →
      _err_message detail = m) ∧
    (∀ detail : String, jsonTail detail = Option.none →
      _err_message detail = JVal.str detail) ∧
    (∀ detail tail : String, jsonTail detail = some tail → jsonLoads tail = Option.none →
      _err_message detail = JVal.str detail) := by
  refine ⟨?_, ?_, ?_⟩
  · intro detail tail fields efields m ht hl he hm htr
    unfold _err_message
    simp [ht, hl, he, hm, htr]
  · intro detail ht
    unfold _err_message
    simp [ht]
  · intro detail tail ht hl
    unfold _err_message
    simp [ht, hl]

/-- C8 witness: the spec's own example — an error text whose only
braced span is a trailing `\x7b"error": \x7b"message": "quota
exceeded"\x7d\x7d` — yields the provider message, via `C8_amended`. -/
theorem C8_amended_witness :
    jsonTail "Error 429 \x7b\"error\": \x7b\"message\": \"quota exceeded\"\x7d\x7d" =
      some "\x7b\"error\": \x7b\"message\": \"quota exceeded\"\x7d\x7d" ∧
    jsonLoads "\x7b\"error\": \x7b\"message\": \"quota exceeded\"\x7d\x7d" =
      some (JVal.obj [("error", JVal.obj [("message", JVal.str "quota exceeded")])]) ∧
    _err_message "Error 429 \x7b\"error\": \x7b\"message\": \"quota exceeded\"\x7d\x7d" =
      JVal.str "quota exceeded" :=
  ⟨rfl, rfl, C8_amended.1 _ _ _ _ _ rfl rfl rfl rfl rfl⟩
